import Mathlib

/-
Verification development for the Ring_Search_System repository
(src/Backend/main.py and src/Backend/index_catalog.py).

The repository is a visual similarity search service.  Its original logic is
the embedding-fusion pipeline `get_combined_embedding` (present in both
files), the `/search` endpoint `search_ring`, the `/remove_stone` endpoint,
and the indexing driver `run_indexing`.  All calls into third-party
pretrained models and OpenCV routines whose internals are not part of this
repository (YOLO, CLIP, cv2.resize, cv2.Canny, cv2.cvtColor BGR2GRAY,
cv2.dilate, cv2.inpaint, cv2.imdecode, cv2.imread, cv2.imencode,
scipy cosine distance, numpy float32 rounding) are abstracted as fields of
an environment structure `Env`; everything the repository itself computes
(the mask scaling and cast to uint8, the masked stencil via
cv2.bitwise_and(src, src, mask) whose documented semantics is
"copy src where mask is nonzero, zero elsewhere", channel replication and
BGR/RGB channel swaps, concatenation, rounding of similarity percentages,
sorting, truncation, the gating logic, and the control flow of every
endpoint) is modelled concretely.

Images are lists of rows of BGR byte triples; scalar values (mask floats,
confidences, similarities) are modelled as rationals.
-/

/-- A pixel in BGR byte order, as decoded by cv2. -/
abbrev Pix : Type := ℕ × ℕ × ℕ

/-- A decoded colour image: a list of rows of BGR pixels. -/
abbrev Img : Type := List (List Pix)

/-- A single-channel byte image (grayscale, edge map, or uint8 mask). -/
abbrev GrayImg : Type := List (List ℕ)

/-- A floating-point segmentation mask, values nominally in [0, 1]. -/
abbrev FMask : Type := List (List ℚ)

/-- A fixed-length vector of scalars, as produced by the embedding model. -/
def Vec (n : ℕ) : Type := { l : List ℚ // l.length = n }

/-- Height of an image, `img.shape[0]` in numpy. -/
def height (img : Img) : ℕ := img.length

/-- Width of an image, `img.shape[1]` in numpy. -/
def width (img : Img) : ℕ := (img.headI).length

/-- Cast of a nonnegative float scalar to numpy uint8: truncation toward
zero followed by wrap-around modulo 256 (`.astype(np.uint8)`). -/
def u8cast (q : ℚ) : ℕ := (⌊q⌋).toNat % 256

/-- The expression `(mask * 255).astype(np.uint8)` of both source files, applied elementwise. -/
def maskToUint8 (m : FMask) : GrayImg := m.map (List.map fun q => u8cast (q * 255))

/-- Embeds `cv2.bitwise_and(src, src, mask=m)`: per the OpenCV documentation
the destination holds `src & src = src` at pixels where the mask byte is
nonzero and stays zero elsewhere (source and mask have equal shape at every
call site, after the mask is resized to the dimensions of the image). -/
def bitwiseAndMask (src : Img) (m : GrayImg) : Img :=
  List.zipWith (fun row mrow =>
    List.zipWith (fun (p : Pix) (mv : ℕ) => if mv = 0 then ((0, 0, 0) : Pix) else p) row mrow)
    src m

/-- Embeds `cv2.cvtColor(·, cv2.COLOR_BGR2RGB)`: swap the first and third
channels of every pixel. -/
def bgr2rgb (img : Img) : Img :=
  img.map (List.map fun (p : Pix) => ((p.2.2, p.2.1, p.1) : Pix))

/-- Embeds `cv2.cvtColor(·, cv2.COLOR_GRAY2RGB)` and `cv2.merge([g, g, g])`:
replicate a single channel across three channels. -/
def gray3 (g : GrayImg) : Img := g.map (List.map fun v => ((v, v, v) : Pix))

/-- The value returned by `clip_model.get_image_features`, as discriminated
by the defensive extraction code in both source files: an output object with
a `pooler_output` attribute, a plain tensor, a tuple whose first component
is the features tensor, or some other output object carrying a
`last_hidden_state` whose class token is `lastCls`. -/
inductive ClipOut where
  | pooled (p : Vec 512)
  | tensor (t : Vec 512)
  | tup (fst : Vec 512)
  | other (lastCls : Vec 512)

/-- True on the `other` variant, which the real
`get_image_features` (a plain tensor result) never produces. -/
def ClipOut.isOther : ClipOut → Bool
  | .other _ => true
  | _ => false

/-- Feature extraction in main.py (lines 67 and 72):
`outputs.pooler_output if hasattr(outputs, "pooler_output") else
(outputs[0] if isinstance(outputs, tuple) else outputs)`.  On the `other`
variant the whole non-tensor output object is selected and the subsequent
`torch.cat` raises, modelled as `none`. -/
def mainExtract : ClipOut → Option (Vec 512)
  | .pooled p => some p
  | .tensor t => some t
  | .tup f => some f
  | .other _ => none

/-- Stone-feature extraction in index_catalog.py (lines 48-53): pooler
output if present, else the tensor itself, else `outputs[0]` for a tuple,
else `outputs.last_hidden_state[:, 0]`. -/
def indexExtractStone : ClipOut → Option (Vec 512)
  | .pooled p => some p
  | .tensor t => some t
  | .tup f => some f
  | .other l => some l

/-- Edge-feature extraction in index_catalog.py (lines 60-65): pooler
output if present, else the tensor itself, else `outputs_edge[0]`.  On the
`other` variant `outputs_edge[0]` selects the full hidden-state tensor of
the wrong shape and the subsequent `torch.cat` raises, modelled as `none`. -/
def indexExtractEdge : ClipOut → Option (Vec 512)
  | .pooled p => some p
  | .tensor t => some t
  | .tup f => some f
  | .other _ => none

/-- The object `results[0]` returned by a YOLO call: the optional masks
tensor (when present, `data[0]` paired with the remaining masks) and the
detection boxes as (class id, confidence) pairs. -/
structure SegObjs where
  masks : Option (FMask × List FMask)
  boxes : List (ℕ × ℚ)

/-- The Telea / Navier-Stokes algorithm selector passed to `cv2.inpaint`. -/
inductive InpaintAlgo where
  | telea
  | ns
deriving DecidableEq

/-- The third-party models and library routines both scripts load and call.
Both source files load the same pretrained weights ("yolov8m-seg.pt" and
"openai/clip-vit-base-patch32"), so one environment serves both. -/
structure Env where
  /-- A `yolo_model(img, verbose=False)` call (no confidence override). -/
  yolo : Img → SegObjs
  /-- A `yolo_model(img, conf=c, verbose=False)` call. -/
  yoloConf : Img → ℚ → SegObjs
  /-- A `cv2.resize(mask, (w, h))` call. -/
  cvResize : FMask → ℕ → ℕ → FMask
  /-- A `cv2.cvtColor(·, cv2.COLOR_BGR2GRAY)` call. -/
  bgr2gray : Img → GrayImg
  /-- A `cv2.Canny(gray, lo, hi)` call. -/
  canny : GrayImg → ℕ → ℕ → GrayImg
  /-- The composite `clip_processor` + `clip_model.get_image_features` call
  on an RGB image, under `torch.no_grad()`. -/
  clip : Img → ClipOut
  /-- Elementwise rounding to a 32-bit float, `.astype(np.float32)`. -/
  toF32 : ℚ → ℚ
  /-- The `scipy.spatial.distance.cosine` distance of two vectors. -/
  cosineDist : List ℚ → List ℚ → ℚ
  /-- A `cv2.imdecode(buf, cv2.IMREAD_COLOR)` call; `none` models a failed
  decode (Python `None`). -/
  imdecode : List ℕ → Option Img
  /-- A `cv2.imread(path)` call; `none` models a missing file. -/
  imread : String → Option Img
  /-- A `cv2.dilate(mask, kernel, iterations=1)` call with an all-ones
  kernel of the given height and width. -/
  dilate : GrayImg → ℕ → ℕ → GrayImg
  /-- A `cv2.inpaint(img, mask, radius, algo)` call. -/
  inpaint : Img → GrayImg → ℚ → InpaintAlgo → Img
  /-- A `cv2.imencode(".png", img)` call, returning the PNG byte buffer. -/
  encodePng : Img → List ℕ

/-- The stone view built by the identical mask block of both
`get_combined_embedding` definitions (main.py lines 50-57,
index_catalog.py lines 27-34): start from a copy of the input; when the
segmentation call produced masks, resize `masks.data[0]` to the
(width, height) of the image, scale it by 255 with a uint8 cast, and stencil the image
with it; otherwise leave the copy untouched. -/
def stoneView (env : Env) (img : Img) : Img :=
  match (env.yolo img).masks with
  | none => img
  | some (m0, _) =>
      bitwiseAndMask img (maskToUint8 (env.cvResize m0 (width img) (height img)))

/-- The image actually handed to the embedding model for the stone
features: the stone view converted from BGR to RGB
(`Image.fromarray(cv2.cvtColor(mask_img, cv2.COLOR_BGR2RGB))`). -/
def stoneInput (env : Env) (img : Img) : Img := bgr2rgb (stoneView env img)

/-- The structure view of both source files: grayscale conversion, Canny
edge detection with thresholds 100 and 200, and replication of the edge map
across three channels. -/
def structView (env : Env) (img : Img) : Img :=
  gray3 (env.canny (env.bgr2gray img) 100 200)

/-- The function `get_combined_embedding` of main.py (lines 48-75): embed the stone view
and the structure view independently through CLIP, extract the feature
tensors with `mainExtract`, concatenate stone-first along dimension 1,
flatten, and cast each entry to float32.  `none` models an uncaught
exception inside the function. -/
def main_get_combined_embedding (env : Env) (img : Img) : Option (List ℚ) :=
  match mainExtract (env.clip (stoneInput env img)),
        mainExtract (env.clip (structView env img)) with
  | some s, some e => some ((s.val ++ e.val).map env.toF32)
  | _, _ => none

/-- The function `get_combined_embedding` of index_catalog.py (lines 21-70):
the same pipeline with the two extraction conditionals of that file. -/
def index_get_combined_embedding (env : Env) (img : Img) : Option (List ℚ) :=
  match indexExtractStone (env.clip (stoneInput env img)),
        indexExtractEdge (env.clip (structView env img)) with
  | some s, some e => some ((s.val ++ e.val).map env.toF32)
  | _, _ => none

/-- Modelled from the spec: the description the spec gives of Step 1 of the
fusion contract, which claims the resized mask is binarized "at the 0.5
threshold scaled to [0,255]" before being applied as a stencil.  This
definition follows the words of the spec (mask value at least 0.5 becomes 255,
anything below becomes 0) for comparison with `stoneView`, which is
translated from the source. -/
def specBinarize (m : FMask) : GrayImg :=
  m.map (List.map fun q => if (1 : ℚ) / 2 ≤ q then 255 else 0)

/-- Modelled from the spec: the stone view as the spec sentence describes
it, using the 0.5-threshold binarization. -/
def specStoneView (env : Env) (img : Img) : Img :=
  match (env.yolo img).masks with
  | none => img
  | some (m0, _) =>
      bitwiseAndMask img (specBinarize (env.cvResize m0 (width img) (height img)))

/-- The configured base URL of main.py. -/
def BASE_URL : String := "http://192.168.1.106:8004"

/-- The static image folder of main.py (`STATIC_IMG_PATH`) and the indexing
input folder of index_catalog.py (`IMG_FOLDER`), which are the same path. -/
def STATIC_IMG_PATH : String := "Rings/ring/"

/-- The error body returned by `/search` when the catalog is empty. -/
def catalogEmptyMsg : String := "Catalog is empty. Run indexing script."

/-- The error body returned by `/search` when a person is detected. -/
def personMsg : String := "Invalid Image: Person detected. Please photograph only the ring."

/-- The error body returned by `/search` when the best similarity is below
the 38.0 quality gate. -/
def noMatchMsg : String := "No matching ring detected. Try a closer, centered photo."

/-- One record of the persisted catalog: an image file name and its fused
vector. -/
structure CatItem where
  name : String
  vector : List ℚ
deriving DecidableEq

/-- One entry of a `/search` response list. -/
structure RItem where
  name : String
  similarity : ℚ
  image_url : String
deriving DecidableEq

/-- The body of a `/search` response: a JSON error object, the result list,
or an uncaught exception (HTTP 500). -/
inductive SOut where
  | err (msg : String)
  | results (items : List RItem)
  | crash
deriving DecidableEq

/-- Externally observable processing events of one `/search` request, used
to state in which order the endpoint touches the upload and the models:
reading the uploaded file, a YOLO call, a CLIP call, and the scoring of one
catalog vector. -/
inductive Ev where
  | readFile
  | yoloCall
  | clipCall
  | scoreCall
deriving DecidableEq

/-- The Python builtin `round(x, 1)`: rounding to one decimal place. -/
def round1 (x : ℚ) : ℚ := ((round (10 * x) : ℤ) : ℚ) / 10

/-- The dictionary appended to `results_list` for one catalog item
(main.py lines 106-111): the cosine similarity `1 - cosine(q, v)` scaled to
a percentage and rounded to one decimal, together with the name of the item
and its static URL. -/
def scoreItem (env : Env) (q : List ℚ) (item : CatItem) : RItem :=
  { name := item.name
    similarity := round1 ((1 - env.cosineDist q item.vector) * 100)
    image_url := BASE_URL ++ "/static_images/" ++ item.name }

/-- The Python call `sorted(results_list, key=lambda x: x["similarity"],
reverse=True)`: a stable sort into descending similarity order. -/
def sortDesc (l : List RItem) : List RItem :=
  l.mergeSort (fun a b => decide (b.similarity ≤ a.similarity))

/-- The first detection the person-blocker loop of main.py (lines 95-98)
rejects: class id 0 with confidence strictly above 0.40. -/
def findPerson (boxes : List (ℕ × ℚ)) : Option (ℕ × ℚ) :=
  boxes.find? (fun b => decide (b.1 = 0) && decide (2 / 5 < b.2))

/-- The events emitted up to and including the query embedding of one
successful pass through the gates of `/search`: the upload read, the broad
detection YOLO call, then the YOLO call and two CLIP calls of
`get_combined_embedding`. -/
def embedEvs : List Ev :=
  [Ev.readFile, Ev.yoloCall, Ev.yoloCall, Ev.clipCall, Ev.clipCall]

/-- The `search_ring` endpoint of main.py (lines 76-122), returning the emitted
event trace together with the response body.  Control flow: empty-catalog
check; read and decode the upload (a failed decode crashes the subsequent
YOLO call); broad YOLO detection at confidence 0.15; the person blocker;
the fused query embedding (one YOLO and two CLIP calls); scoring of every
catalog item; stable descending sort truncated to ten; the 38.0 quality
gate on the best similarity. -/
def search_ring (env : Env) (catalog : List CatItem) (file : List ℕ) :
    List Ev × SOut :=
  if catalog.length = 0 then ([], .err catalogEmptyMsg)
  else
    match env.imdecode file with
    | none => ([Ev.readFile], .crash)
    | some img =>
      match findPerson (env.yoloConf img (3 / 20)).boxes with
      | some _ => ([Ev.readFile, Ev.yoloCall], .err personMsg)
      | none =>
        match main_get_combined_embedding env img with
        | none => (embedEvs, .crash)
        | some q =>
          match ((sortDesc (catalog.map (scoreItem env q))).take 10).head? with
          | none => (embedEvs ++ catalog.map (fun _ => Ev.scoreCall), .crash)
          | some best =>
            if best.similarity < 38 then
              (embedEvs ++ catalog.map (fun _ => Ev.scoreCall), .err noMatchMsg)
            else
              (embedEvs ++ catalog.map (fun _ => Ev.scoreCall),
               .results ((sortDesc (catalog.map (scoreItem env q))).take 10))

/-- The in-memory catalog after startup (main.py lines 42-46): the parsed
contents of catalog_data.npy, or the empty array when loading raised. -/
def catalogData (loaded : Option (List CatItem)) : List CatItem := loaded.getD []

/-- The body of a `/remove_stone` or `/get_mask` response: a JSON error
object or a streamed PNG. -/
inductive ROut where
  | err (msg : String)
  | png (bytes : List ℕ)
deriving DecidableEq

/-- The `remove_stone` endpoint of main.py (lines 145-174): read the image from
the static folder; build a three-channel grayscale "structure" image; run
YOLO on it at confidence 0.15; when masks exist, resize the first mask to
the dimensions of the image, scale to uint8, dilate with a 25x25 all-ones
kernel, inpaint the structure image over the dilated region with the Telea
algorithm at radius 15, and return the PNG; otherwise return the structure
image as a PNG. -/
def remove_stone (env : Env) (imageName : String) : ROut :=
  match env.imread (STATIC_IMG_PATH ++ imageName) with
  | none => .err "Image not found"
  | some img =>
    let structureImg := gray3 (env.bgr2gray img)
    match (env.yoloConf structureImg (3 / 20)).masks with
    | none => .png (env.encodePng structureImg)
    | some (m0, _) =>
      let maskU := maskToUint8 (env.cvResize m0 (width img) (height img))
      let expanded := env.dilate maskU 25 25
      .png (env.encodePng (env.inpaint structureImg expanded 15 InpaintAlgo.telea))

/-- The file filter of index_catalog.py line 78:
`f.lower().endswith(tuple of the suffixes .png, .jpg, .jpeg)`. -/
def hasImgExt (s : String) : Bool :=
  let l := s.toList.map Char.toLower
  (".png".toList).isSuffixOf l || (".jpg".toList).isSuffixOf l ||
    (".jpeg".toList).isSuffixOf l

/-- The function `run_indexing` of index_catalog.py (lines 72-101) given the directory
listing of the image folder: `none` when the folder is missing (the
function returns before saving anything); otherwise the saved catalog,
holding one record per listed file that passes the extension filter,
decodes successfully, and whose embedding call does not raise (decode
failures are skipped by the `img is not None` check, embedding exceptions
by the try/except). -/
def run_indexing (env : Env) (folderExists : Bool) (files : List String) :
    Option (List CatItem) :=
  if folderExists then
    some ((files.filter hasImgExt).filterMap (fun nm =>
      (env.imread (STATIC_IMG_PATH ++ nm)).bind (fun img =>
        (index_get_combined_embedding env img).map (fun v => ⟨nm, v⟩))))
  else none

/-- A concrete 512-dimensional vector for instantiating the environment. -/
def exVec : Vec 512 := ⟨List.replicate 512 1, List.length_replicate 512 1⟩

/-- A concrete one-pixel test image. -/
def exImg : Img := [[((5, 6, 7) : Pix)]]

/-- A concrete environment in which YOLO finds no masks and no boxes, CLIP
returns a plain tensor, and the remaining library routines are simple total
functions.  Used to instantiate theorems at concrete inputs. -/
def exEnv : Env :=
  { yolo := fun _ => { masks := none, boxes := [] }
    yoloConf := fun _ _ => { masks := none, boxes := [] }
    cvResize := fun m _ _ => m
    bgr2gray := fun img => img.map (List.map fun p => p.1)
    canny := fun g _ _ => g
    clip := fun _ => .tensor exVec
    toF32 := fun q => q
    cosineDist := fun _ _ => 0
    imdecode := fun _ => some exImg
    imread := fun _ => some exImg
    dilate := fun m _ _ => m
    inpaint := fun i _ _ _ => i
    encodePng := fun _ => [137, 80, 78, 71] }

/-- A variant of `exEnv` whose segmentation call returns one mask with the
fractional value 1/10 at the single pixel. -/
def exEnvMask : Env :=
  { exEnv with yolo := fun _ => { masks := some ([[1/10]], []), boxes := [] } }

/-- A variant of `exEnv` whose broad detection call reports a person
(class 0) at confidence 0.9. -/
def exEnvPerson : Env :=
  { exEnv with yoloConf := fun _ _ => { masks := none, boxes := [(0, 9/10)] } }

/-- A variant of `exEnv` whose cosine distance is constantly 1, so every
similarity percentage is 0 and the quality gate fires. -/
def exEnvFar : Env :=
  { exEnv with cosineDist := fun _ _ => 1 }

/-- A variant of `exEnv` whose segmentation call used by the embedding
produces a mask over `exImg`. -/
def exEnvSeg : Env :=
  { exEnv with
    yolo := fun _ => { masks := some ([[1/10]], []), boxes := [] }
    yoloConf := fun _ _ => { masks := some ([[1/2]], []), boxes := [] } }

/-- The stored fused vector of the concrete catalog item. -/
def exCatVec : List ℚ := List.replicate 1024 1

/-- A concrete one-item catalog. -/
def exCatalog : List CatItem := [{ name := "r1.png", vector := exCatVec }]

theorem indexExtractEdge_eq_mainExtract (c : ClipOut) : indexExtractEdge c = mainExtract c := by
  cases c <;> rfl

theorem indexExtractStone_eq_mainExtract (c : ClipOut) (h : c.isOther = false) :
    indexExtractStone c = mainExtract c := by
  cases c with
  | other l => exact absurd h (by simp [ClipOut.isOther])
  | pooled p => rfl
  | tensor t => rfl
  | tup f => rfl

theorem embed_pair_spec (exS exE : ClipOut → Option (Vec 512)) (env : Env) (img : Img)
    (v : List ℚ)
    (h : (match exS (env.clip (stoneInput env img)), exE (env.clip (structView env img)) with
          | some s, some e => some ((s.val ++ e.val).map env.toF32)
          | _, _ => none) = some v) :
    ∃ s e : Vec 512, exS (env.clip (stoneInput env img)) = some s ∧
      exE (env.clip (structView env img)) = some e ∧
      v = (s.val ++ e.val).map env.toF32 ∧ v.length = 1024 := by
  cases hs : exS (env.clip (stoneInput env img)) with
  | none => rw [hs] at h; cases he : exE (env.clip (structView env img)) <;> rw [he] at h <;> simp at h
  | some s =>
    cases he : exE (env.clip (structView env img)) with
    | none => rw [hs, he] at h; simp at h
    | some e =>
      rw [hs, he] at h
      obtain rfl : v = (s.val ++ e.val).map env.toF32 := (Option.some.inj h).symm
      refine ⟨s, e, rfl, rfl, rfl, ?_⟩
      simp [s.property, e.property]

/-- C1: for every input image, the embedding computed by the indexing
procedure and the one computed by the query procedure are identical.  The
two source functions differ only in their defensive extraction
conditionals, which disagree solely on the `other` shape of CLIP output;
the hypothesis states that the loaded CLIP model never produces that shape
(its `get_image_features` returns a plain tensor). -/
theorem index_embedding_eq_main_embedding (env : Env)
    (h : ∀ i, (env.clip i).isOther = false) (img : Img) :
    index_get_combined_embedding env img = main_get_combined_embedding env img := by
  unfold index_get_combined_embedding main_get_combined_embedding
  rw [indexExtractStone_eq_mainExtract _ (h _), indexExtractEdge_eq_mainExtract]

theorem index_embedding_eq_main_embedding_witness :
    (∀ i, (exEnv.clip i).isOther = false) ∧
      index_get_combined_embedding exEnv exImg = main_get_combined_embedding exEnv exImg :=
  ⟨fun _ => rfl, index_embedding_eq_main_embedding exEnv (fun _ => rfl) exImg⟩

/-- C2: whenever either `get_combined_embedding` returns a fused vector, it
is the float32 cast of the stone-view embedding followed by the
structure-view embedding, in that order, and has 1024 entries. -/
theorem fused_vector_concat :
    (∀ (env : Env) (img : Img) (v : List ℚ), main_get_combined_embedding env img = some v →
      ∃ s e : Vec 512, mainExtract (env.clip (stoneInput env img)) = some s ∧
        mainExtract (env.clip (structView env img)) = some e ∧
        v = (s.val ++ e.val).map env.toF32 ∧ v.length = 1024) ∧
    (∀ (env : Env) (img : Img) (v : List ℚ), index_get_combined_embedding env img = some v →
      ∃ s e : Vec 512, indexExtractStone (env.clip (stoneInput env img)) = some s ∧
        indexExtractEdge (env.clip (structView env img)) = some e ∧
        v = (s.val ++ e.val).map env.toF32 ∧ v.length = 1024) :=
  ⟨fun env img v h => embed_pair_spec mainExtract mainExtract env img v h,
   fun env img v h => embed_pair_spec indexExtractStone indexExtractEdge env img v h⟩

/-- The fused vector the example environment produces for the example
image. -/
def exFused : List ℚ := (exVec.val ++ exVec.val).map (fun q => q)

theorem fused_vector_concat_witness :
    ∃ s e : Vec 512, mainExtract (exEnv.clip (stoneInput exEnv exImg)) = some s ∧
      mainExtract (exEnv.clip (structView exEnv exImg)) = some e ∧
      exFused = (s.val ++ e.val).map exEnv.toF32 ∧ exFused.length = 1024 :=
  fused_vector_concat.1 exEnv exImg exFused rfl

/-- C3 counterexample: on a one-pixel image whose segmentation mask holds
the fractional value 1/10, the stone view the code computes keeps the
pixel (the scaled mask byte is 25, nonzero), while the stone view built as
the claim describes it (binarization at the 0.5 threshold scaled to
[0,255]) zeroes the pixel; so the code does not binarize at 0.5. -/
theorem stoneView_ne_specStoneView :
    stoneView exEnvMask exImg ≠ specStoneView exEnvMask exImg := by
  have hu : ¬ u8cast ((10 : ℚ)⁻¹ * 255) = 0 := by
    unfold u8cast
    norm_num
    decide
  have hbb : (10 : ℚ)⁻¹ < 2⁻¹ := by norm_num
  simp [stoneView, specStoneView, exEnvMask, exEnv, width, height, maskToUint8,
    specBinarize, bitwiseAndMask, hu, hbb, exImg]

/-- C3 amended: when the segmentation call produces masks, the stone view
resizes the first mask to the width and height of the image, scales it by
255 with a uint8 cast, and stencils the image with it, keeping exactly the
pixels whose scaled mask byte is nonzero; for a mask value q in [0, 1] the
pixel is zeroed precisely when q < 1/255, an effective threshold of 1/255
rather than 0.5. -/
theorem stoneView_stencil (env : Env) (img : Img) (m0 : FMask) (rest : List FMask)
    (h : (env.yolo img).masks = some (m0, rest)) :
    stoneView env img =
      bitwiseAndMask img (maskToUint8 (env.cvResize m0 (width img) (height img))) ∧
    ∀ q : ℚ, 0 ≤ q → q ≤ 1 → (u8cast (q * 255) = 0 ↔ q < 1 / 255) := by
  constructor
  · unfold stoneView
    rw [h]
  · intro q h0 h1
    unfold u8cast
    have hnn : (0 : ℚ) ≤ q * 255 := by positivity
    have hf0 : (0 : ℤ) ≤ ⌊q * 255⌋ := Int.floor_nonneg.2 hnn
    have hf255 : ⌊q * 255⌋ ≤ 255 := by
      have hle : q * 255 ≤ 255 := by nlinarith
      calc ⌊q * 255⌋ ≤ ⌊(255 : ℚ)⌋ := Int.floor_le_floor hle
        _ = 255 := by norm_num
    have hlt : (⌊q * 255⌋).toNat < 256 := by omega
    rw [Nat.mod_eq_of_lt hlt]
    constructor
    · intro hz
      have hzf : ⌊q * 255⌋ = 0 := by omega
      have hmem := (Int.floor_eq_zero_iff).1 hzf
      have : q * 255 < 1 := hmem.2
      linarith
    · intro hq
      have hlt1 : q * 255 < 1 := by
        have : q < 1 / 255 := hq
        linarith
      have hzf : ⌊q * 255⌋ = 0 := (Int.floor_eq_zero_iff).2 ⟨hnn, hlt1⟩
      omega

theorem stoneView_stencil_witness :
    (stoneView exEnvMask exImg =
      bitwiseAndMask exImg
        (maskToUint8 (exEnvMask.cvResize [[1 / 10]] (width exImg) (height exImg))) ∧
     (u8cast ((1 / 10 : ℚ) * 255) = 0 ↔ (1 / 10 : ℚ) < 1 / 255)) :=
  ⟨(stoneView_stencil exEnvMask exImg [[1 / 10]] [] rfl).1,
   (stoneView_stencil exEnvMask exImg [[1 / 10]] [] rfl).2 (1 / 10) (by norm_num) (by norm_num)⟩

/-- C4: when the segmentation call produces no masks, the stone view is the
original image unchanged, and the image handed to the embedding model for
the stone features is exactly the (BGR to RGB conversion of the) original
image. -/
theorem stoneView_no_mask (env : Env) (img : Img) (h : (env.yolo img).masks = none) :
    stoneView env img = img ∧ stoneInput env img = bgr2rgb img := by
  have h1 : stoneView env img = img := by
    unfold stoneView
    rw [h]
  refine ⟨h1, ?_⟩
  unfold stoneInput
  rw [h1]

theorem stoneView_no_mask_witness :
    stoneView exEnv exImg = exImg ∧ stoneInput exEnv exImg = bgr2rgb exImg :=
  stoneView_no_mask exEnv exImg rfl

theorem sortDesc_pairwise (l : List RItem) :
    (sortDesc l).Pairwise (fun a b => b.similarity ≤ a.similarity) := by
  have hms := @List.sorted_mergeSort RItem
    (fun a b : RItem => decide (b.similarity ≤ a.similarity))
    (fun a b c h1 h2 => by
      simp only [decide_eq_true_eq] at h1 h2 ⊢
      exact le_trans h2 h1)
    (fun a b => by
      simp only [Bool.or_eq_true, decide_eq_true_eq]
      exact le_total b.similarity a.similarity)
    l
  exact hms.imp (fun h => of_decide_eq_true h)

/-- C5: whenever `/search` returns a result list, that list is the stable
descending sort (by similarity) of the scores of every catalog item against
the fused query vector, truncated to the first ten entries; each score is
the cosine similarity scaled to a 0-100 percentage rounded to one decimal
place. -/
theorem search_results_sorted_top10 (env : Env) (catalog : List CatItem) (file : List ℕ)
    (evs : List Ev) (r : List RItem)
    (h : search_ring env catalog file = (evs, SOut.results r)) :
    ∃ img q, env.imdecode file = some img ∧
      main_get_combined_embedding env img = some q ∧
      r = (sortDesc (catalog.map (scoreItem env q))).take 10 ∧
      r.Pairwise (fun a b => b.similarity ≤ a.similarity) ∧
      r.length = min 10 catalog.length ∧
      (∀ it, it ∈ r → ∃ c, c ∈ catalog ∧ it = scoreItem env q c) := by
  unfold search_ring at h
  split at h
  · simp at h
  · split at h
    · simp at h
    next img hd =>
      split at h
      · simp at h
      · split at h
        · simp at h
        next q he =>
          split at h
          · simp at h
          next best hbest =>
            split at h
            · simp at h
            · simp only [Prod.mk.injEq, SOut.results.injEq] at h
              obtain ⟨-, rfl⟩ := h
              refine ⟨img, q, hd, he, rfl, ?_, ?_, ?_⟩
              · exact List.Pairwise.sublist (List.take_sublist 10 _) (sortDesc_pairwise _)
              · simp [sortDesc, List.length_take, List.length_mergeSort, List.length_map]
              · intro it hit
                have h1 : it ∈ sortDesc (catalog.map (scoreItem env q)) :=
                  List.take_subset 10 _ hit
                have h2 : it ∈ catalog.map (scoreItem env q) := by
                  simpa [sortDesc] using h1
                obtain ⟨c, hc1, hc2⟩ := List.mem_map.1 h2
                exact ⟨c, hc1, hc2.symm⟩

/-- The response entry the example environment produces for the single
example catalog item: cosine distance 0 scores 100.0. -/
def exRItem : RItem :=
  { name := "r1.png", similarity := 100,
    image_url := BASE_URL ++ "/static_images/" ++ "r1.png" }

/-- Evaluation of one concrete successful search in the example
environment. -/
theorem search_ring_exEnv_eval :
    search_ring exEnv exCatalog [1] =
      (embedEvs ++ [Ev.scoreCall], SOut.results [exRItem]) := by
  have hdec : exEnv.imdecode [1] = some exImg := rfl
  have hfp : findPerson (exEnv.yoloConf exImg (3 / 20)).boxes = none := rfl
  have hq : main_get_combined_embedding exEnv exImg = some exFused := rfl
  have hcos : exEnv.cosineDist exFused exCatVec = 0 := rfl
  have h100 : round1 (100 : ℚ) = 100 := by
    unfold round1
    norm_num [round_eq]
  have hn : ¬ ((100 : ℚ) < 38) := by norm_num
  unfold search_ring
  simp [hdec, hfp, hq, hcos, h100, hn, exCatalog, exRItem, scoreItem, sortDesc,
    List.mergeSort_of_sorted, embedEvs]

theorem search_results_sorted_top10_witness :
    ∃ img q, exEnv.imdecode [1] = some img ∧
      main_get_combined_embedding exEnv img = some q ∧
      [exRItem] = (sortDesc (exCatalog.map (scoreItem exEnv q))).take 10 ∧
      List.Pairwise (fun a b : RItem => b.similarity ≤ a.similarity) [exRItem] ∧
      ([exRItem] : List RItem).length = min 10 exCatalog.length ∧
      (∀ it, it ∈ [exRItem] → ∃ c, c ∈ exCatalog ∧ it = scoreItem exEnv q c) :=
  search_results_sorted_top10 exEnv exCatalog [1] (embedEvs ++ [Ev.scoreCall]) [exRItem]
    search_ring_exEnv_eval

/-- C6: whenever the broad detection of a `/search` request reports a
person (class 0) above the 0.40 confidence threshold, the request is
rejected with the person error, and the emitted trace contains no scoring
event — the gate runs before any similarity scoring. -/
theorem person_gate_rejects (env : Env) (catalog : List CatItem) (file : List ℕ) (img : Img)
    (hc : ¬ catalog.length = 0) (hd : env.imdecode file = some img)
    (hp : ∃ b, b ∈ (env.yoloConf img (3 / 20)).boxes ∧ b.1 = 0 ∧ 2 / 5 < b.2) :
    ∃ evs, search_ring env catalog file = (evs, SOut.err personMsg) ∧
      Ev.scoreCall ∉ evs := by
  have hsome : (findPerson (env.yoloConf img (3 / 20)).boxes).isSome := by
    unfold findPerson
    rw [List.find?_isSome]
    obtain ⟨b, hb, h0, hgt⟩ := hp
    refine ⟨b, hb, ?_⟩
    simp only [Bool.and_eq_true, decide_eq_true_eq]
    exact ⟨h0, hgt⟩
  obtain ⟨b, hfp⟩ := Option.isSome_iff_exists.1 hsome
  refine ⟨[Ev.readFile, Ev.yoloCall], ?_, by decide⟩
  unfold search_ring
  rw [if_neg hc]
  simp [hd, hfp]

theorem person_gate_rejects_witness :
    ∃ evs, search_ring exEnvPerson exCatalog [1] = (evs, SOut.err personMsg) ∧
      Ev.scoreCall ∉ evs :=
  person_gate_rejects exEnvPerson exCatalog [1] exImg (by decide) rfl
    ⟨(0, 9 / 10), by simp [exEnvPerson], rfl, by norm_num⟩

/-- The response entry of the far example environment: cosine distance 1
scores 0.0. -/
def exFarItem : RItem :=
  { name := "r1.png", similarity := 0,
    image_url := BASE_URL ++ "/static_images/" ++ "r1.png" }

/-- C7 counterexample: a concrete run in which the quality gate fires (the
best similarity, 0.0, is below 38.0) yet the emitted trace already contains
a scoring event: the no-match gate runs after similarity scoring, not
before it as the claim states. -/
theorem quality_gate_after_scoring :
    search_ring exEnvFar exCatalog [1] =
      (embedEvs ++ [Ev.scoreCall], SOut.err noMatchMsg) ∧
    Ev.scoreCall ∈ embedEvs ++ [Ev.scoreCall] := by
  constructor
  · have hdec : exEnvFar.imdecode [1] = some exImg := rfl
    have hfp : findPerson (exEnvFar.yoloConf exImg (3 / 20)).boxes = none := rfl
    have hq : main_get_combined_embedding exEnvFar exImg = some exFused := rfl
    have hcos : exEnvFar.cosineDist exFused exCatVec = 1 := rfl
    have h0 : round1 (0 : ℚ) = 0 := by
      unfold round1
      norm_num [round_eq]
    have hn : (0 : ℚ) < 38 := by norm_num
    unfold search_ring
    simp [hdec, hfp, hq, hcos, h0, hn, exCatalog, scoreItem, sortDesc,
      List.mergeSort_of_sorted, embedEvs]
  · simp [embedEvs]

/-- C7 amended: when a `/search` request passes the empty-catalog check,
the decode, and the person gate, and the best similarity among the scored
and sorted top ten is below 38.0, the request is rejected with the no-match
error; this gate is applied after the similarity scoring of every catalog
item (the trace already contains a scoring event per item), not before
scoring. -/
theorem quality_gate_rejects (env : Env) (catalog : List CatItem) (file : List ℕ)
    (img : Img) (q : List ℚ) (best : RItem)
    (hc : ¬ catalog.length = 0) (hd : env.imdecode file = some img)
    (hp : findPerson (env.yoloConf img (3 / 20)).boxes = none)
    (he : main_get_combined_embedding env img = some q)
    (hb : ((sortDesc (catalog.map (scoreItem env q))).take 10).head? = some best)
    (hlt : best.similarity < 38) :
    search_ring env catalog file =
      (embedEvs ++ catalog.map (fun _ => Ev.scoreCall), SOut.err noMatchMsg) ∧
    Ev.scoreCall ∈ embedEvs ++ catalog.map (fun _ => Ev.scoreCall) := by
  constructor
  · unfold search_ring
    rw [if_neg hc]
    simp [hd, hp, he, hb, hlt]
  · obtain ⟨c, cs, rfl⟩ : ∃ c cs, catalog = c :: cs := by
      cases catalog with
      | nil => simp at hc
      | cons c cs => exact ⟨c, cs, rfl⟩
    simp [embedEvs]

theorem exFar_head :
    ((sortDesc (exCatalog.map (scoreItem exEnvFar exFused))).take 10).head? =
      some exFarItem := by
  have hcos : exEnvFar.cosineDist exFused exCatVec = 1 := rfl
  have h0 : round1 (0 : ℚ) = 0 := by
    unfold round1
    norm_num [round_eq]
  simp [exCatalog, scoreItem, hcos, h0, sortDesc, List.mergeSort_of_sorted, exFarItem]

theorem quality_gate_rejects_witness :
    (search_ring exEnvFar exCatalog [1] =
      (embedEvs ++ exCatalog.map (fun _ => Ev.scoreCall), SOut.err noMatchMsg) ∧
     Ev.scoreCall ∈ embedEvs ++ exCatalog.map (fun _ => Ev.scoreCall)) :=
  quality_gate_rejects exEnvFar exCatalog [1] exImg exFused exFarItem (by decide) rfl rfl rfl
    exFar_head (by norm_num [exFarItem])

/-- C8: when the image is found and the segmentation call of the endpoint
produces masks, `/remove_stone` returns the PNG encoding of the structure
image inpainted with the Telea algorithm at radius 15 over the first mask
resized to the dimensions of the image, scaled to uint8, and dilated with
a 25x25 all-ones kernel. -/
theorem remove_stone_inpaints (env : Env) (imageName : String) (img : Img)
    (m0 : FMask) (rest : List FMask)
    (hr : env.imread (STATIC_IMG_PATH ++ imageName) = some img)
    (hm : (env.yoloConf (gray3 (env.bgr2gray img)) (3 / 20)).masks = some (m0, rest)) :
    remove_stone env imageName =
      ROut.png (env.encodePng
        (env.inpaint (gray3 (env.bgr2gray img))
          (env.dilate (maskToUint8 (env.cvResize m0 (width img) (height img))) 25 25)
          15 InpaintAlgo.telea)) := by
  unfold remove_stone
  simp [hr, hm]

theorem remove_stone_inpaints_witness :
    remove_stone exEnvSeg "r1.png" =
      ROut.png (exEnvSeg.encodePng
        (exEnvSeg.inpaint (gray3 (exEnvSeg.bgr2gray exImg))
          (exEnvSeg.dilate
            (maskToUint8 (exEnvSeg.cvResize [[1 / 2]] (width exImg) (height exImg))) 25 25)
          15 InpaintAlgo.telea)) :=
  remove_stone_inpaints exEnvSeg "r1.png" exImg [[1 / 2]] [] rfl rfl

/-- C9: when the loaded catalog is empty — in particular when loading the
catalog file raised and the startup fallback left the empty array — every
`/search` request is answered with the empty-catalog error immediately; the
emitted trace is empty (the upload is never read, no model runs, no
embedding and no score is computed) and the answer does not depend on the
request or on the models. -/
theorem search_empty_catalog :
    catalogData none = [] ∧
    ∀ (env : Env) (load : Option (List CatItem)) (file : List ℕ),
      (catalogData load).length = 0 →
      search_ring env (catalogData load) file = ([], SOut.err catalogEmptyMsg) := by
  refine ⟨rfl, ?_⟩
  intro env load file h
  unfold search_ring
  rw [if_pos h]

theorem search_empty_catalog_witness :
    (catalogData (none : Option (List CatItem))).length = 0 ∧
    search_ring exEnv (catalogData none) [1] = ([], SOut.err catalogEmptyMsg) :=
  ⟨rfl, search_empty_catalog.2 exEnv none [1] rfl⟩

/-- C10: the indexing run over an existing folder always produces a saved
catalog (decode failures and embedding exceptions only skip the file), and
every record of that catalog pairs a listed file name passing the
case-insensitive png/jpg/jpeg extension filter with the 1024-entry vector
`get_combined_embedding` produced for the decoded image of that file — no
record with a missing or malformed vector is ever saved. -/
theorem run_indexing_records :
    (∀ (env : Env) (files : List String), (run_indexing env true files).isSome) ∧
    (∀ (env : Env) (files : List String) (cat : List CatItem),
      run_indexing env true files = some cat →
      ∀ it, it ∈ cat → hasImgExt it.name = true ∧ it.name ∈ files ∧
        ∃ img, env.imread (STATIC_IMG_PATH ++ it.name) = some img ∧
          index_get_combined_embedding env img = some it.vector ∧
          it.vector.length = 1024) := by
  constructor
  · intro env files
    simp [run_indexing]
  · intro env files cat h it hit
    have hcat : ((files.filter hasImgExt).filterMap (fun nm =>
        (env.imread (STATIC_IMG_PATH ++ nm)).bind (fun img =>
          (index_get_combined_embedding env img).map (fun v => ⟨nm, v⟩)))) = cat := by
      simpa [run_indexing] using h
    rw [← hcat] at hit
    obtain ⟨nm, hnm, hf⟩ := List.mem_filterMap.1 hit
    obtain ⟨hmemf, hext⟩ := List.mem_filter.1 hnm
    cases himg : env.imread (STATIC_IMG_PATH ++ nm) with
    | none =>
      rw [himg] at hf
      simp at hf
    | some img =>
      rw [himg] at hf
      rw [Option.some_bind] at hf
      cases hemb : index_get_combined_embedding env img with
      | none =>
        rw [hemb] at hf
        simp at hf
      | some v =>
        rw [hemb] at hf
        simp only [Option.map_some', Option.some.injEq] at hf
        subst hf
        refine ⟨hext, hmemf, img, himg, hemb, ?_⟩
        obtain ⟨s, e, -, -, rfl, hlen⟩ :=
          embed_pair_spec indexExtractStone indexExtractEdge env img v hemb
        exact hlen

theorem run_indexing_records_witness :
    (run_indexing exEnv true ["a.png", "b.txt"]).isSome ∧
    (hasImgExt "a.png" = true ∧ "a.png" ∈ ["a.png", "b.txt"] ∧
      ∃ img, exEnv.imread (STATIC_IMG_PATH ++ "a.png") = some img ∧
        index_get_combined_embedding exEnv img = some exFused ∧
        exFused.length = 1024) :=
  ⟨run_indexing_records.1 exEnv ["a.png", "b.txt"],
   run_indexing_records.2 exEnv ["a.png", "b.txt"]
     [{ name := "a.png", vector := exFused }] rfl
     { name := "a.png", vector := exFused } (by simp)⟩
